/-
Verification of the bread-backup collection/restoration engine against its
natural-language specification.

The Python source is shallowly embedded: strings are `List Char` / `String`,
Python dicts are association lists in insertion order, fallible operations
return `Option`, and operating-system effects (stat, readlink, chown, file
contents, directory listings) are passed in explicitly as oracles.  The
Python `re` module is modeled by a small regular-expression engine
(Brzozowski derivatives) together with a parser for the regex strings the
program generates; `re.search` on the anchored shapes the program produces
is modeled by enumerating the start positions the leading `(?:^|.*/)` or
`^` alternative admits.
-/
import Mathlib

namespace BreadBackup

/-! ## Python string primitives -/

/-- Python `str.strip()` whitespace set (ASCII subset relevant here). -/
def isPySpace (c : Char) : Bool :=
  c = ' ' || c = '\t' || c = '\n' || c = '\r' || c = '\x0b' || c = '\x0c'

/-- Python `str.strip()`. -/
def pyStrip (s : List Char) : List Char :=
  ((s.dropWhile isPySpace).reverse.dropWhile isPySpace).reverse

/-- Worker for `pyReplace`; fuel bounds the scan length. -/
def replaceAllAux (pat rep : List Char) : Nat → List Char → List Char
  | 0, s => s
  | fuel + 1, s =>
    if pat.isPrefixOf s then rep ++ replaceAllAux pat rep fuel (s.drop pat.length)
    else
      match s with
      | [] => []
      | c :: cs => c :: replaceAllAux pat rep fuel cs

/-- Python `str.replace(old, new)`: left-to-right, non-overlapping, the
replacement text is never rescanned.  (The empty-`old` case, which Python
treats specially, never occurs in this program.) -/
def pyReplace (s pat rep : List Char) : List Char :=
  if pat.isEmpty then s else replaceAllAux pat rep s.length s

/-! ## Regular-expression engine (model of the `re` module on the regexes
this program generates) -/

/-- Anchor-free regular expressions: the constructs `_glob_to_regex`
outputs between its leading anchor and optional trailing `$`. -/
inductive RE where
  | nul
  | eps
  | anyc
  | lit (c : Char)
  | cls (neg : Bool) (cs : List Char)
  | cat (a b : RE)
  | alt (a b : RE)
  | star (a : RE)
  | opt (a : RE)
deriving Repr, DecidableEq

/-- Does the regex accept the empty string? -/
def nullable : RE → Bool
  | .nul => false
  | .eps => true
  | .anyc => false
  | .lit _ => false
  | .cls _ _ => false
  | .cat a b => nullable a && nullable b
  | .alt a b => nullable a || nullable b
  | .star _ => true
  | .opt _ => true

/-- Concatenation with unit/zero collapsing (language-preserving). -/
def mkCat : RE → RE → RE
  | .nul, _ => .nul
  | .eps, b => b
  | a, .nul => .nul
  | a, .eps => a
  | a, b => .cat a b

/-- Alternation with zero collapsing (language-preserving). -/
def mkAlt : RE → RE → RE
  | .nul, b => b
  | a, .nul => a
  | a, b => .alt a b

/-- Brzozowski derivative.  `.` does not match a newline (Python `re`
without `DOTALL`); a negated class matches anything outside the set. -/
def deriv : RE → Char → RE
  | .nul, _ => .nul
  | .eps, _ => .nul
  | .anyc, c => if c = '\n' then .nul else .eps
  | .lit d, c => if c = d then .eps else .nul
  | .cls neg cs, c => if (cs.contains c) != neg then .eps else .nul
  | .cat a b, c =>
    if nullable a then mkAlt (mkCat (deriv a c) b) (deriv b c)
    else mkCat (deriv a c) b
  | .alt a b, c => mkAlt (deriv a c) (deriv b c)
  | .star a, c => mkCat (deriv a c) (.star a)
  | .opt a, c => deriv a c

/-- Does `r` match all of `s`? -/
def fullMatch (r : RE) (s : List Char) : Bool :=
  nullable (s.foldl deriv r)

/-- Does `r` match some (possibly empty) leading part of `s`? -/
def prefMatch : RE → List Char → Bool
  | r, [] => nullable r
  | r, c :: cs => nullable r || prefMatch (deriv r c) cs

/-- Full match against `X$`: Python `$` also matches just before one
trailing newline. -/
def fullMatchDollar (r : RE) (s : List Char) : Bool :=
  fullMatch r s ||
    (match s.getLast? with
     | some '\n' => fullMatch r s.dropLast
     | _ => false)

/-! ### Parser for generated regex strings -/

/-- Parse a character class body after `[` (optionally `^`-negated),
up to the closing `]`.  Ranges and escapes are not generated by
`_glob_to_regex`, so they are rejected. -/
def parseClsChars : List Char → Option (List Char × List Char)
  | [] => none
  | ']' :: r => some ([], r)
  | '-' :: _ => none
  | '\\' :: _ => none
  | c :: r =>
    match parseClsChars r with
    | some (cs, rem) => some (c :: cs, rem)
    | none => none

/-- Characters that cannot begin a literal atom in the supported subset. -/
def reMeta : List Char :=
  [')', '|', '*', '?', '+', '{', '}', '\\', '^', '$', ']']

/-- Consume a run of postfix quantifiers (`*`, `?`; a lazy `*?` has the
same language as `*`). -/
def applyPost : RE → List Char → RE × List Char
  | a, '*' :: r => applyPost (.star a) r
  | a, '?' :: r => applyPost (.opt a) r
  | a, r => (a, r)

mutual

/-- Alternation level of the regex grammar. -/
def parseRAlt : Nat → List Char → Option (RE × List Char)
  | 0, _ => none
  | f + 1, s => do
    let (r, rest) ← parseRSeq f s
    match rest with
    | '|' :: rest2 => do
      let (r2, rest3) ← parseRAlt f rest2
      pure (.alt r r2, rest3)
    | _ => pure (r, rest)

/-- Concatenation level of the regex grammar. -/
def parseRSeq : Nat → List Char → Option (RE × List Char)
  | 0, _ => none
  | f + 1, s =>
    match s with
    | [] => some (.eps, [])
    | ')' :: _ => some (.eps, s)
    | '|' :: _ => some (.eps, s)
    | _ => do
      let (a, rest) ← parseRPiece f s
      let (b, rest2) ← parseRSeq f rest
      pure (.cat a b, rest2)

/-- One quantified atom. -/
def parseRPiece : Nat → List Char → Option (RE × List Char)
  | 0, _ => none
  | f + 1, s => do
    let (a, rest) ← parseRAtom f s
    pure (applyPost a rest)

/-- One atom: group, class, `.`, or a literal character. -/
def parseRAtom : Nat → List Char → Option (RE × List Char)
  | 0, _ => none
  | f + 1, s =>
    match s with
    | '(' :: '?' :: ':' :: rest => do
      let (r, rest2) ← parseRAlt f rest
      match rest2 with
      | ')' :: rest3 => pure (r, rest3)
      | _ => none
    | '(' :: '?' :: _ => none
    | '(' :: rest => do
      let (r, rest2) ← parseRAlt f rest
      match rest2 with
      | ')' :: rest3 => pure (r, rest3)
      | _ => none
    | '[' :: rest =>
      match rest with
      | '^' :: rest2 =>
        match parseClsChars rest2 with
        | some (cs, rem) => some (.cls true cs, rem)
        | none => none
      | _ =>
        match parseClsChars rest with
        | some (cs, rem) => some (.cls false cs, rem)
        | none => none
    | '.' :: rest => pure (.anyc, rest)
    | c :: rest => if c ∈ reMeta then none else pure (.lit c, rest)
    | [] => none

end

/-! ### Compiled patterns and `re.search` on the generated shapes -/

/-- A compiled exclude regex.  `_glob_to_regex` always emits either
`^body[$]` (pattern anchored at the tree root) or `(?:^|.*/)body[$]`. -/
structure CompiledPattern where
  anchored : Bool
  body : RE
  endAnchor : Bool
deriving Repr, DecidableEq

/-- The floating-anchor text `_glob_to_regex` prepends to unanchored
patterns. -/
def floatAnchor : List Char := "(?:^|.*/)".data

/-- Model of `re.compile` on the strings `_glob_to_regex` produces:
split off the leading anchor alternative and the trailing `$`, parse the
rest.  Strings outside the supported subset give `none` (in Python,
either a `re.error` or a construct this development does not model). -/
def reCompile (r : List Char) : Option CompiledPattern :=
  let step : Option (Bool × List Char) :=
    if floatAnchor.isPrefixOf r then some (false, r.drop floatAnchor.length)
    else
      match r with
      | '^' :: rest => some (true, rest)
      | _ => none
  match step with
  | none => none
  | some (anch, body1) =>
    let p : Bool × List Char :=
      match body1.getLast? with
      | some '$' => (true, body1.dropLast)
      | _ => (false, body1)
    match parseRAlt (p.2.length * 4 + 16) p.2 with
    | some (re, []) => some ⟨anch, re, p.1⟩
    | _ => none

/-- Start positions `re.search` can use: with the floating anchor, the
`^` branch allows position 0 and the `.*/` branch allows the position
right after any `/`. -/
def floatStarts : List Char → List (List Char)
  | [] => []
  | c :: cs => (if c = '/' then [cs] else []) ++ floatStarts cs

/-- All admissible search start suffixes of `s`. -/
def searchStarts (s : List Char) : List (List Char) :=
  s :: floatStarts s

/-- Model of `compiled.search(path)` for a generated pattern: try each
admissible start; with a trailing `$` the body must reach the end,
otherwise any extension matches. -/
def reSearch (cp : CompiledPattern) (path : List Char) : Bool :=
  let starts := if cp.anchored then [path] else searchStarts path
  if cp.endAnchor then starts.any (fun t => fullMatchDollar cp.body t)
  else starts.any (fun t => prefMatch cp.body t)

/-! ## ExcludePatternMatcher (src/bread_backup/utils/exclude.py) -/

/-- Model of `ExcludePatternMatcher._glob_to_regex`, literally: four sequential
string replacements, the trailing-`/` rule, the anchor rule, and the
end-anchor rule. -/
def glob_to_regex (pattern : List Char) : List Char :=
  let p := pyReplace pattern "**/".data "(?:.*/)?".data
  let p := pyReplace p "**".data ".*".data
  let p := pyReplace p "*".data "[^/]*".data
  let p := pyReplace p "?".data "[^/]".data
  let p := if "/".data.isSuffixOf p then p ++ ".*".data else p
  let p := if "/".data.isPrefixOf p then '^' :: p.drop 1 else floatAnchor ++ p
  if ".*".data.isSuffixOf p then p else p ++ "$".data

/-- The matcher state: `self.patterns`, a list of
`(is_negation, compiled regex)` pairs in insertion order. -/
abbrev Matcher := List (Bool × CompiledPattern)

/-- Model of `ExcludePatternMatcher.add_pattern`: skip blanks and comments, strip a
leading `!`, compile.  `none` models a pattern whose generated regex the
model cannot compile. -/
def add_pattern (rules : Matcher) (pattern : String) : Option Matcher :=
  let p := pyStrip pattern.data
  if p.isEmpty then some rules
  else if p.head? = some '#' then some rules
  else
    let q : Bool × List Char :=
      if p.head? = some '!' then (true, pyStrip (p.drop 1)) else (false, p)
    match reCompile (glob_to_regex q.2) with
    | some cp => some (rules ++ [(q.1, cp)])
    | none => none

/-- Model of `ExcludePatternMatcher.__init__`: add the patterns in order. -/
def mkMatcher (patterns : List String) : Option Matcher :=
  patterns.foldlM add_pattern []

/-- The `./`-normalization at the top of `should_exclude`. -/
def normQuery (path : List Char) : List Char :=
  if "./".data.isPrefixOf path then path.drop 2 else path

/-- Model of `ExcludePatternMatcher.should_exclude`: fold over the rules in order;
each matching rule overwrites the verdict. -/
def should_exclude (rules : Matcher) (path : String) : Bool :=
  let p := normQuery path.data
  rules.foldl (fun excluded r => if reSearch r.2 p then !r.1 else excluded) false

/-- Module-level helper `should_exclude_path`: build a matcher from the
patterns and query it once (`none` = the constructor raised). -/
def should_exclude_path (patterns : List String) (path : String) : Option Bool :=
  (mkMatcher patterns).map (fun m => should_exclude m path)

/-- Spec-side definition (for claim C2 only), following the spec's words:
\"the last rule that matches a path determines the outcome (negation flips
exclude to include); a path matched by nothing is included by default\". -/
def lastMatchVerdict (rules : Matcher) (path : String) : Bool :=
  match (List.reverse rules).find? (fun r => reSearch r.2 (normQuery path.data)) with
  | none => false
  | some r => !r.1

/-! ## Manifest / metadata (src/bread_backup/core/metadata.py)

JSON documents are modeled as a first-order value type; objects are
association lists in insertion order (Python dicts preserve it).
`json.dump`/`json.load` (the Python standard library) are modeled as
faithful transport of the document, so `save_metadata` produces the
document it writes and `load_metadata` consumes the document it read. -/

inductive Json where
  | null
  | b (v : Bool)
  | i (v : Int)
  | s (v : String)
  | arr (elems : List Json)
  | obj (fields : List (String × Json))
deriving Repr

/-- The `BackupMetadata` dataclass.  Python `dict[str, dict[str, Any]]`
component payloads are arbitrary JSON documents. -/
structure BackupMetadata where
  backup_id : String
  backup_type : String
  timestamp : String
  hostname : String
  kernel_version : String
  bread_version : String
  compression : String
  parent_backup_id : Option String := none
  components : List (String × Json) := []
  exclude_patterns : List String := []
  checksums : List (String × String) := []
deriving Repr

/-- Model of `BackupMetadata.to_dict`: the eleven fields, in the order the source
writes them. -/
def BackupMetadata.to_dict (m : BackupMetadata) : Json :=
  .obj
    [ ("backup_id", .s m.backup_id),
      ("backup_type", .s m.backup_type),
      ("parent_backup_id",
        match m.parent_backup_id with
        | some p => .s p
        | none => .null),
      ("timestamp", .s m.timestamp),
      ("hostname", .s m.hostname),
      ("kernel_version", .s m.kernel_version),
      ("bread_version", .s m.bread_version),
      ("compression", .s m.compression),
      ("components", .obj m.components),
      ("exclude_patterns", .arr (m.exclude_patterns.map .s)),
      ("checksums", .obj (m.checksums.map (fun kv => (kv.1, .s kv.2)))) ]

/-- The field names `BackupMetadata.__init__` accepts as keywords. -/
def backupMetadataFields : List String :=
  [ "backup_id", "backup_type", "timestamp", "hostname", "kernel_version",
    "bread_version", "compression", "parent_backup_id", "components",
    "exclude_patterns", "checksums" ]

/-- First-occurrence lookup in an object (object key lists model Python
dicts, whose keys are unique). -/
def jlookup (kvs : List (String × Json)) (k : String) : Option Json :=
  (kvs.find? (fun kv => kv.1 = k)).map (fun kv => kv.2)

/-- Decode a JSON string. -/
def asStr : Json → Option String
  | .s v => some v
  | _ => none

/-- Decode `Optional[str]` (JSON `null` is Python `None`). -/
def asOptStr : Json → Option (Option String)
  | .null => some none
  | .s v => some (some v)
  | _ => none

/-- Decode a list of JSON strings. -/
def decodeStrs : List Json → Option (List String)
  | [] => some []
  | e :: es => do
    let v ← asStr e
    let rest ← decodeStrs es
    pure (v :: rest)

/-- Decode an array of strings. -/
def asStrList : Json → Option (List String)
  | .arr es => decodeStrs es
  | _ => none

/-- Decode object entries whose values are all strings. -/
def decodeStrPairs : List (String × Json) → Option (List (String × String))
  | [] => some []
  | kv :: kvs => do
    let v ← asStr kv.2
    let rest ← decodeStrPairs kvs
    pure ((kv.1, v) :: rest)

/-- Decode an object whose values are all strings. -/
def asStrPairs : Json → Option (List (String × String))
  | .obj kvs => decodeStrPairs kvs
  | _ => none

/-- Decode an object, keeping its payloads as-is. -/
def asObj : Json → Option (List (String × Json))
  | .obj kvs => some kvs
  | _ => none

/-- Field extraction part of `cls(**data)` once all keywords are known
to be dataclass fields: the fields without defaults must all be present,
and each value must have the field's shape. -/
def BackupMetadata.ofFields (kvs : List (String × Json)) :
    Option BackupMetadata := do
    let backup_id ← jlookup kvs "backup_id" >>= asStr
    let backup_type ← jlookup kvs "backup_type" >>= asStr
    let timestamp ← jlookup kvs "timestamp" >>= asStr
    let hostname ← jlookup kvs "hostname" >>= asStr
    let kernel_version ← jlookup kvs "kernel_version" >>= asStr
    let bread_version ← jlookup kvs "bread_version" >>= asStr
    let compression ← jlookup kvs "compression" >>= asStr
    let parent_backup_id ←
      match jlookup kvs "parent_backup_id" with
      | some v => asOptStr v
      | none => some none
    let components ←
      match jlookup kvs "components" with
      | some v => asObj v
      | none => some []
    let exclude_patterns ←
      match jlookup kvs "exclude_patterns" with
      | some v => asStrList v
      | none => some []
    let checksums ←
      match jlookup kvs "checksums" with
      | some v => asStrPairs v
      | none => some []
    pure { backup_id, backup_type, timestamp, hostname, kernel_version,
           bread_version, compression, parent_backup_id, components,
           exclude_patterns, checksums }

/-- Model of `BackupMetadata.from_dict` = `cls(**data)`: every key must name a
dataclass field (an unknown keyword raises `TypeError`, modeled as
`none`), then the fields are extracted. -/
def BackupMetadata.from_dict (j : Json) : Option BackupMetadata :=
  match asObj j with
  | none => none
  | some kvs =>
    if kvs.all (fun kv => kv.1 ∈ backupMetadataFields) then
      BackupMetadata.ofFields kvs
    else none

/-- Model of `MetadataManager.save_metadata`: the JSON document written to
`output_path / "manifest.json"`. -/
def save_metadata (m : BackupMetadata) : Json :=
  m.to_dict

/-- Model of `MetadataManager.load_metadata`: parse the document that was read and
rebuild the dataclass. -/
def load_metadata (doc : Json) : Option BackupMetadata :=
  BackupMetadata.from_dict doc

/-- Model of `MetadataManager.verify_checksums`.  The filesystem under
`backup_root` is an oracle: `fexists` tells whether a path exists and
`checksumOf` is `calculate_file_checksum` (streamed SHA-256) on it;
`backup_root / file_path` is the string join of the two.  Walks the
`checksums` mapping in order, stopping at the first missing file or
mismatch. -/
def verify_checksums (fexists : String → Bool) (checksumOf : String → String)
    (backup_root : String) : List (String × String) → Bool
  | [] => true
  | (file_path, expected) :: rest =>
    let full_path := backup_root ++ "/" ++ file_path
    if !(fexists full_path) then false
    else if checksumOf full_path != expected then false
    else verify_checksums fexists checksumOf backup_root rest

/-! ## File permissions (src/bread_backup/utils/permissions.py)

Python floats (`st_atime` / `st_mtime`) appear only as opaque values that
are stored and copied, never computed with; they are modeled as `Int`
timestamps. -/

/-- The `FileMetadata` dataclass. -/
structure FileMetadata where
  path : String
  mode : Int
  uid : Int
  gid : Int
  atime : Int
  mtime : Int
  size : Int
  is_symlink : Bool := false
  symlink_target : Option String := none
deriving Repr, DecidableEq

/-- Octal digits of `n`, most significant first (`oct(n)` without the
`0o` prefix), for `n ≥ 0`. -/
def natToOct (n : Nat) : List Char :=
  if h : n < 8 then [Char.ofNat (48 + n)]
  else natToOct (n / 8) ++ [Char.ofNat (48 + n % 8)]
termination_by n
decreasing_by
  exact Nat.div_lt_self (by omega) (by omega)

/-- Python `oct`: `0o…` for nonnegative, `-0o…` for negative. -/
def pyOct (n : Int) : List Char :=
  if n < 0 then '-' :: '0' :: 'o' :: natToOct (-n).toNat
  else '0' :: 'o' :: natToOct n.toNat

/-- One octal digit's value. -/
def octDigitVal (c : Char) : Option Nat :=
  if '0' ≤ c ∧ c ≤ '7' then some (c.toNat - 48) else none

/-- Accumulate octal digits (at least one required by the caller). -/
def parseOctAux (acc : Nat) : List Char → Option Nat
  | [] => some acc
  | c :: cs =>
    match octDigitVal c with
    | some d => parseOctAux (acc * 8 + d) cs
    | none => none

/-- Python `int(s, 8)` on the strings `oct` produces: optional sign,
optional `0o`/`0O` prefix, then octal digits.  (Python also allows
whitespace and underscores; those never occur in `oct`'s output.) -/
def pyIntBase8 (s : List Char) : Option Int := do
  let p : Bool × List Char :=
    match s with
    | '-' :: rest => (true, rest)
    | '+' :: rest => (false, rest)
    | _ => (false, s)
  let digits : List Char :=
    match p.2 with
    | '0' :: 'o' :: rest => rest
    | '0' :: 'O' :: rest => rest
    | rest => rest
  if digits.isEmpty then none
  else
    let n ← parseOctAux 0 digits
    pure (if p.1 then -(n : Int) else (n : Int))

/-- Value type of the permissions sidecar dictionary. -/
inductive PVal where
  | null
  | s (v : String)
  | i (v : Int)
  | b (v : Bool)
deriving Repr, DecidableEq

/-- Model of `FileMetadata.to_dict`: `mode` is rendered with `oct`, everything
else passes through. -/
def FileMetadata.to_dict (fm : FileMetadata) : List (String × PVal) :=
  [ ("path", .s fm.path),
    ("mode", .s (String.mk (pyOct fm.mode))),
    ("uid", .i fm.uid),
    ("gid", .i fm.gid),
    ("atime", .i fm.atime),
    ("mtime", .i fm.mtime),
    ("size", .i fm.size),
    ("is_symlink", .b fm.is_symlink),
    ("symlink_target",
      match fm.symlink_target with
      | some t => .s t
      | none => .null) ]

/-- The keyword names `FileMetadata.__init__` accepts. -/
def fileMetadataFields : List String :=
  [ "path", "mode", "uid", "gid", "atime", "mtime", "size",
    "is_symlink", "symlink_target" ]

/-- First-occurrence lookup in a sidecar dictionary. -/
def plookup (kvs : List (String × PVal)) (k : String) : Option PVal :=
  (kvs.find? (fun kv => kv.1 = k)).map (fun kv => kv.2)

/-- Field extraction part of `FileMetadata(**data)` once all keywords
are known field names. -/
def FileMetadata.ofFields (kvs : List (String × PVal)) :
    Option FileMetadata := do
    let path ←
      match plookup kvs "path" with
      | some (.s v) => some v
      | _ => none
    let mode ←
      match plookup kvs "mode" with
      | some (.s v) => pyIntBase8 v.data
      | some (.i v) => some v
      | _ => none
    let uid ←
      match plookup kvs "uid" with
      | some (.i v) => some v
      | _ => none
    let gid ←
      match plookup kvs "gid" with
      | some (.i v) => some v
      | _ => none
    let atime ←
      match plookup kvs "atime" with
      | some (.i v) => some v
      | _ => none
    let mtime ←
      match plookup kvs "mtime" with
      | some (.i v) => some v
      | _ => none
    let size ←
      match plookup kvs "size" with
      | some (.i v) => some v
      | _ => none
    let is_symlink ←
      match plookup kvs "is_symlink" with
      | some (.b v) => some v
      | none => some false
      | _ => none
    let symlink_target ←
      match plookup kvs "symlink_target" with
      | some (.s v) => some (some v)
      | some .null => some none
      | none => some none
      | _ => none
    pure { path, mode, uid, gid, atime, mtime, size, is_symlink,
           symlink_target }

/-- Model of `FileMetadata.from_dict`: a string `mode` is parsed back with
`int(mode, 8)` (an integer mode is kept as-is), and `cls(**data)`
enforces the same keyword rules as for the manifest. -/
def FileMetadata.from_dict (kvs : List (String × PVal)) : Option FileMetadata :=
  if kvs.all (fun kv => kv.1 ∈ fileMetadataFields) then
    FileMetadata.ofFields kvs
  else none

/-- Result of `os.stat(path, follow_symlinks=False)` (assumed to have
succeeded; `capture_permissions` documents `OSError` otherwise). -/
structure StatResult where
  st_mode : Int
  st_uid : Int
  st_gid : Int
  st_atime : Int
  st_mtime : Int
  st_size : Int
deriving Repr, DecidableEq

/-- Model of `FilePermissionManager.capture_permissions`.  The OS is an oracle:
`statRes` is the (successful) lstat result, `islink` is
`os.path.islink`, and `readlinkRes` is `os.readlink` (`none` = the call
raised `OSError`).  A symlink whose link cannot be read is captured as a
regular node. -/
def capture_permissions (path : String) (statRes : StatResult)
    (islink : Bool) (readlinkRes : Option String) : FileMetadata :=
  let q : Bool × Option String :=
    if islink then
      match readlinkRes with
      | some t => (true, some t)
      | none => (false, none)
    else (false, none)
  { path := path,
    mode := statRes.st_mode,
    uid := statRes.st_uid,
    gid := statRes.st_gid,
    atime := statRes.st_atime,
    mtime := statRes.st_mtime,
    size := statRes.st_size,
    is_symlink := q.1,
    symlink_target := q.2 }

/-- Outcome of one OS call inside `restore_permissions`.
`osFail` is an `OSError` that is not a `PermissionError`. -/
inductive OSResult where
  | ok
  | permFail
  | osFail
deriving Repr, DecidableEq

/-- What a run of `restore_permissions` did. -/
structure RestoreTrace where
  chownAttempted : Bool
  chmodAttempted : Bool
  utimeAttempted : Bool
  raised : Bool
deriving Repr, DecidableEq

/-- Model of `FilePermissionManager.restore_permissions`, as a trace over OS-call
oracles.  `chown` and `chmod` catch only `PermissionError` (any other
`OSError` propagates and ends the function); `chmod` runs only for
non-symlinks; `utime` catches both `PermissionError` and `OSError`. -/
def restore_permissions (md : FileMetadata)
    (chownRes chmodRes utimeRes : OSResult) : RestoreTrace :=
  if chownRes = .osFail then
    { chownAttempted := true, chmodAttempted := false,
      utimeAttempted := false, raised := true }
  else if md.is_symlink = false then
    if chmodRes = .osFail then
      { chownAttempted := true, chmodAttempted := true,
        utimeAttempted := false, raised := true }
    else
      { chownAttempted := true, chmodAttempted := true,
        utimeAttempted := true, raised := false }
  else
    { chownAttempted := true, chmodAttempted := false,
      utimeAttempted := true, raised := false }

/-! ## Config collector (src/bread_backup/collectors/config_files.py)

The source tree is a rose tree; a file's `stat` is `none` when
`os.stat` raises.  The walk mirrors `os.walk(config_dir,
followlinks=False)` with the in-place pruning of excluded directories and
the per-file exclusion/stat handling of `ConfigCollector.collect`. -/

inductive FsNode where
  | file (name : String) (statSize : Option Nat)
  | dir (name : String) (children : List FsNode)
deriving Repr

/-- Entry name. -/
def FsNode.name : FsNode → String
  | .file n _ => n
  | .dir n _ => n

/-- Summary values: the collector's summary dict mixes counts and path
strings. -/
inductive SVal where
  | n (v : Nat)
  | s (v : String)
deriving Repr, DecidableEq

/-- Walk the entries of a directory whose path relative to
`config_dir.parent` is `rel`, mirroring the `os.walk` loop of `collect`:
an excluded file or a file whose `stat` raises is skipped (counted), a
surviving file is counted with its size, an excluded directory is pruned
before descending (its contents are never visited and never counted),
any other directory is walked recursively.  Returns
(files to back up, total size, skipped files). -/
def walkNodes (m : Matcher) (rel : String) : List FsNode → Nat × Nat × Nat
  | [] => (0, 0, 0)
  | .file n st :: rest =>
    let here : Nat × Nat × Nat :=
      if should_exclude m (rel ++ "/" ++ n) then (0, 0, 1)
      else
        match st with
        | some sz => (1, sz, 0)
        | none => (0, 0, 1)
    let acc := walkNodes m rel rest
    (here.1 + acc.1, here.2.1 + acc.2.1, here.2.2 + acc.2.2)
  | .dir n cs :: rest =>
    let here : Nat × Nat × Nat :=
      if should_exclude m (rel ++ "/" ++ n) then (0, 0, 0)
      else walkNodes m (rel ++ "/" ++ n) cs
    let acc := walkNodes m rel rest
    (here.1 + acc.1, here.2.1 + acc.2.1, here.2.2 + acc.2.2)

/-- Model of `ConfigCollector.collect`.  `configTree` is the config directory's
contents (`none` = `config_dir.exists()` is false).  A missing directory
returns the three-field zero summary before touching anything; otherwise
the walk runs and the five-field summary is produced. -/
def ConfigCollector.collect (m : Matcher) (output_dir : String)
    (username : Option String) (configTree : Option (List FsNode)) :
    List (String × SVal) :=
  match configTree with
  | none =>
    [ ("total_files", .n 0), ("total_size_bytes", .n 0),
      ("skipped_files", .n 0) ]
  | some children =>
    let acc := walkNodes m ".config" children
    let archive_name := (username.getD "user") ++ "-config.tar"
    [ ("total_files", .n acc.1),
      ("total_size_bytes", .n acc.2.1),
      ("skipped_files", .n acc.2.2),
      ("archive_path", .s (output_dir ++ "/" ++ archive_name)),
      ("permissions_file", .s (output_dir ++ "/file-permissions.json")) ]

/-! ## Local storage (src/bread_backup/storage/local.py) -/

/-- One `BackupInfo` record (`date` is the `st_mtime` timestamp). -/
structure BackupInfo where
  filename : String
  path : String
  size : Int
  date : Int
  backup_type : String := "unknown"
deriving Repr, DecidableEq

/-- One directory entry seen by `destination.glob("*.bread")`: its name
and its `stat` result (`none` = `OSError`, the entry is skipped). -/
structure DirEntry where
  name : String
  stat : Option (Int × Int)
deriving Repr, DecidableEq

/-- Descending-by-date order used by `sort_by="date"` (`reverse=True`). -/
def dateGE (a b : BackupInfo) : Prop := b.date ≤ a.date

instance : DecidableRel dateGE := fun a b => inferInstanceAs (Decidable (b.date ≤ a.date))

instance : IsTotal BackupInfo dateGE := ⟨fun a b => Int.le_total b.date a.date⟩

instance : IsTrans BackupInfo dateGE := ⟨fun _ _ _ h1 h2 => le_trans h2 h1⟩

/-- Descending-by-size order used by `sort_by="size"` (`reverse=True`). -/
def sizeGE (a b : BackupInfo) : Prop := b.size ≤ a.size

instance : DecidableRel sizeGE := fun a b => inferInstanceAs (Decidable (b.size ≤ a.size))

/-- Ascending-by-filename order used by `sort_by="name"`. -/
def nameLE (a b : BackupInfo) : Prop := a.filename ≤ b.filename

instance : DecidableRel nameLE := fun a b => inferInstanceAs (Decidable (a.filename ≤ b.filename))

/-- Model of `LocalStorage.list_backups`: the `*.bread` entries whose `stat`
succeeded, as `BackupInfo` records, sorted per `sort_by` (an unknown
key leaves the list unsorted, as in the source).  Python's stable
`list.sort` with a key (and `reverse=True` for date/size) is a stable
sort, i.e. `insertionSort` by the corresponding order. -/
def list_backups (destExists : Bool) (destination : String)
    (entries : List DirEntry) (sortBy : String) : List BackupInfo :=
  if !destExists then []
  else
    let backups := entries.filterMap (fun e =>
      if ".bread".data.isSuffixOf e.name.data then
        e.stat.map (fun st =>
          { filename := e.name, path := destination ++ "/" ++ e.name,
            size := st.1, date := st.2 : BackupInfo })
      else none)
    if sortBy = "date" then backups.insertionSort dateGE
    else if sortBy = "size" then backups.insertionSort sizeGE
    else if sortBy = "name" then backups.insertionSort nameLE
    else backups

/-- Model of `LocalStorage.cleanup_old_backups`: list newest-first, try to delete
everything past the first `keep_count`, swallow per-file `OSError`s, and
return the successfully deleted paths.  `deleteOk` is the oracle for
`delete_backup` succeeding on a path. -/
def cleanup_old_backups (destExists : Bool) (destination : String)
    (entries : List DirEntry) (deleteOk : String → Bool)
    (keep_count : Nat) : List String :=
  let backups := list_backups destExists destination entries "date"
  ((backups.drop keep_count).filter (fun b => deleteOk b.path)).map
    (fun b => b.path)

/-! ## Helper lemmas -/

/-- The verdict fold of `should_exclude` is determined by the last
matching rule (scanning the reversed list for the first match). -/
theorem foldl_exclude_eq_find (p : List Char) (acc : Bool) (rules : Matcher) :
    rules.foldl (fun excluded r => if reSearch r.2 p then !r.1 else excluded) acc
      = (match rules.reverse.find? (fun r => reSearch r.2 p) with
        | none => acc
        | some r => !r.1) := by
  induction rules generalizing acc with
  | nil => simp
  | cons r rs ih =>
    simp only [List.foldl_cons, List.reverse_cons, List.find?_append, ih]
    cases h : rs.reverse.find? (fun r => reSearch r.2 p) with
    | some r' => simp [h, Option.or]
    | none =>
      cases hs : reSearch r.2 p <;>
        simp [h, hs, Option.or, List.find?]

/-- The function `verify_checksums` succeeds exactly when every listed file exists
and hashes to its recorded checksum. -/
theorem verify_checksums_iff_aux (fexists : String → Bool)
    (checksumOf : String → String) (root : String)
    (l : List (String × String)) :
    verify_checksums fexists checksumOf root l = true ↔
      ∀ pc ∈ l, fexists (root ++ "/" ++ pc.1) = true ∧
        checksumOf (root ++ "/" ++ pc.1) = pc.2 := by
  induction l with
  | nil => simp [verify_checksums]
  | cons pc rest ih =>
    obtain ⟨p, c⟩ := pc
    simp only [verify_checksums]
    cases hf : fexists (root ++ "/" ++ p) with
    | false => simp [hf]
    | true =>
      by_cases hc : checksumOf (root ++ "/" ++ p) = c
      · simp [hf, hc, ih]
      · simp [hf, hc, bne]

/-- The collector's sorted backup list is sorted newest-first. -/
theorem list_backups_sorted (destExists : Bool) (dest : String)
    (entries : List DirEntry) :
    List.Sorted dateGE (list_backups destExists dest entries "date") := by
  unfold list_backups
  cases destExists with
  | false => simp
  | true => simpa using List.sorted_insertionSort dateGE _

/-- Decoding inverts the string-list encoding used for
`exclude_patterns`. -/
theorem decodeStrs_map_s (l : List String) : decodeStrs (l.map Json.s) = some l := by
  induction l with
  | nil => rfl
  | cons a t ih => simp [decodeStrs, asStr, ih]

/-- Decoding inverts the string-valued-object encoding used for
`checksums`. -/
theorem decodeStrPairs_roundtrip (l : List (String × String)) :
    decodeStrPairs (l.map fun kv => (kv.1, Json.s kv.2)) = some l := by
  induction l with
  | nil => rfl
  | cons a t ih => simp [decodeStrPairs, asStr, ih]

/-- Unfolding equation for `natToOct`. -/
theorem natToOct_eq (n : Nat) :
    natToOct n = if n < 8 then [Char.ofNat (48 + n)]
      else natToOct (n / 8) ++ [Char.ofNat (48 + n % 8)] := by
  conv_lhs => rw [natToOct]
  simp

/-- Octal rendering `natToOct` never yields an empty digit string. -/
theorem natToOct_ne_nil (n : Nat) : natToOct n ≠ [] := by
  rw [natToOct_eq]
  split <;> simp

/-- The parser `parseOctAux` processes an appended block after the first. -/
theorem parseOctAux_append (acc : Nat) (xs ys : List Char) :
    parseOctAux acc (xs ++ ys) =
      (match parseOctAux acc xs with
       | some a => parseOctAux a ys
       | none => none) := by
  induction xs generalizing acc with
  | nil => simp [parseOctAux]
  | cons c cs ih =>
    simp only [List.cons_append, parseOctAux]
    cases h : octDigitVal c with
    | some d => simp [h, ih]
    | none => simp [h]

/-- The rendered digit of `k < 8` parses back to `k`. -/
theorem octDigitVal_digit (k : Nat) (hk : k < 8) :
    octDigitVal (Char.ofNat (48 + k)) = some k := by
  interval_cases k <;> rfl

/-- Parsing inverts octal rendering, with the accumulator shifted by the
digit count. -/
theorem parseOctAux_natToOct (n : Nat) :
    ∀ acc, parseOctAux acc (natToOct n) =
      some (acc * 8 ^ (natToOct n).length + n) := by
  induction n using Nat.strong_induction_on with
  | _ n ih =>
    intro acc
    by_cases h : n < 8
    · rw [natToOct_eq, if_pos h]
      simp [parseOctAux, octDigitVal_digit n h]
    · rw [natToOct_eq, if_neg h]
      rw [parseOctAux_append]
      have hd : n / 8 < n := Nat.div_lt_self (by omega) (by omega)
      rw [ih (n / 8) hd acc]
      have h8 : n % 8 < 8 := Nat.mod_lt n (by omega)
      simp only [parseOctAux, octDigitVal_digit (n % 8) h8,
        List.length_append, List.length_cons, List.length_nil]
      have hmod : 8 * (n / 8) + n % 8 = n := Nat.div_add_mod n 8
      have : (acc * 8 ^ (natToOct (n / 8)).length + n / 8) * 8 + n % 8 =
          acc * 8 ^ ((natToOct (n / 8)).length + 1) + n := by
        rw [pow_succ]
        ring_nf
        omega
      rw [this]

/-- Python `int(oct(n), 8) = n`. -/
theorem pyIntBase8_pyOct (n : Int) : pyIntBase8 (pyOct n) = some n := by
  have key : ∀ m : Nat, parseOctAux 0 (natToOct m) = some m := by
    intro m
    have := parseOctAux_natToOct m 0
    simpa using this
  unfold pyOct
  by_cases h : n < 0
  · rw [if_pos h]
    have hne := natToOct_ne_nil (-n).toNat
    simp only [pyIntBase8, key]
    cases hd : natToOct (-n).toNat with
    | nil => exact absurd hd hne
    | cons c cs =>
      have hk := key (-n).toNat
      rw [hd] at hk
      simp [hk]
      omega
  · rw [if_neg h]
    have hne := natToOct_ne_nil n.toNat
    simp only [pyIntBase8, key]
    cases hd : natToOct n.toNat with
    | nil => exact absurd hd hne
    | cons c cs =>
      have hk := key n.toNat
      rw [hd] at hk
      simp [hk]
      omega

/-! ## Claim theorems -/

/-- C1: the spec claims the single pattern `**/cache/*` excludes
`a/b/cache/x` and `cache/x` (and not `cache`).  The code's
`_glob_to_regex` replaces `**/` with `(?:.*/)?` and only afterwards
replaces every `?` with `[^/]`, corrupting the inserted group to
`([^/]:.[^/]*/)[^/]`; the compiled regex demands a literal `:` and so
matches none of these paths: `should_exclude` returns `false` for all
three, contradicting the documented intent of the `**/` handling. -/
theorem C1_cache_pattern_all_false :
    should_exclude_path ["**/cache/*"] "a/b/cache/x" = some false ∧
    should_exclude_path ["**/cache/*"] "cache/x" = some false ∧
    should_exclude_path ["**/cache/*"] "cache" = some false := by
  refine ⟨by decide, by decide, by decide⟩

/-- C2: `should_exclude` returns the outcome of the last matching rule
(`!` rules flip to include), `false` when nothing matches; on
`["*.log", "!keep.log"]` it excludes `app.log` and keeps `keep.log`. -/
theorem C2_last_match_wins :
    (∀ (rules : Matcher) (path : String),
      should_exclude rules path = lastMatchVerdict rules path) ∧
    should_exclude_path ["*.log", "!keep.log"] "app.log" = some true ∧
    should_exclude_path ["*.log", "!keep.log"] "keep.log" = some false := by
  refine ⟨fun rules path => ?_, by decide, by decide⟩
  unfold should_exclude lastMatchVerdict
  rw [foldl_exclude_eq_find]

/-- C6: `capture_permissions` only reports `is_symlink = true` together
with a present `symlink_target`, and a symlink whose link cannot be read
is captured as a regular (non-symlink) node rather than failing. -/
theorem C6_capture_symlink_invariant
    (path : String) (st : StatResult) (islink : Bool) (rl : Option String) :
    ((capture_permissions path st islink rl).is_symlink = true →
      (capture_permissions path st islink rl).symlink_target.isSome = true) ∧
    (islink = true → rl = none →
      (capture_permissions path st islink rl).is_symlink = false) := by
  cases islink <;> cases rl <;> simp [capture_permissions]

/-- Witness for C6 at a concrete unreadable symlink. -/
theorem C6_capture_symlink_invariant_witness :
    ((capture_permissions "l" ⟨41471, 0, 0, 0, 0, 4⟩ true none).is_symlink = true →
      (capture_permissions "l" ⟨41471, 0, 0, 0, 0, 4⟩ true none).symlink_target.isSome = true) ∧
    (true = true → (none : Option String) = none →
      (capture_permissions "l" ⟨41471, 0, 0, 0, 0, 4⟩ true none).is_symlink = false) :=
  C6_capture_symlink_invariant "l" ⟨41471, 0, 0, 0, 0, 4⟩ true none

/-- C7 counterexample: the claim says a failure of any one restoration
step leaves the other steps attempted, but a non-permission `OSError`
from `os.chown` (only `PermissionError` is caught) propagates: neither
`chmod` nor `utime` is attempted and the exception escapes. -/
theorem C7_counterexample_chown_oserror_blocks_rest :
    (restore_permissions ⟨"f", 420, 0, 0, 0, 0, 3, false, none⟩
        .osFail .ok .ok).chmodAttempted = false ∧
    (restore_permissions ⟨"f", 420, 0, 0, 0, 0, 3, false, none⟩
        .osFail .ok .ok).utimeAttempted = false ∧
    (restore_permissions ⟨"f", 420, 0, 0, 0, 0, 3, false, none⟩
        .osFail .ok .ok).raised = true := by
  refine ⟨rfl, rfl, rfl⟩

/-- C7 amended: mode bits are applied only to non-symlinks, and the
steps are independently best-effort for *permission* failures: when
neither `chown` nor `chmod` hits a non-permission `OSError`, all steps
are attempted (`chmod` exactly when the record is not a symlink) and
nothing propagates — `utime` swallows even plain `OSError`s.  (A
non-permission `OSError` from `chown` or `chmod` propagates and skips
the remaining steps, per the counterexample.) -/
theorem C7_amended_best_effort (md : FileMetadata) (cr mr ur : OSResult) :
    ((restore_permissions md cr mr ur).chmodAttempted = true →
      md.is_symlink = false) ∧
    (cr ≠ .osFail → mr ≠ .osFail →
      (restore_permissions md cr mr ur).chownAttempted = true ∧
      (restore_permissions md cr mr ur).chmodAttempted = !md.is_symlink ∧
      (restore_permissions md cr mr ur).utimeAttempted = true ∧
      (restore_permissions md cr mr ur).raised = false) := by
  cases cr <;> cases mr <;> cases h : md.is_symlink <;>
    simp [restore_permissions, h]

/-- Witness for C7 amended: a regular file whose `chown` and `chmod`
both fail with `PermissionError`. -/
theorem C7_amended_best_effort_witness :
    ((restore_permissions ⟨"f", 420, 0, 0, 0, 0, 3, false, none⟩
        .permFail .permFail .ok).chmodAttempted = true →
      (⟨"f", 420, 0, 0, 0, 0, 3, false, none⟩ : FileMetadata).is_symlink = false) ∧
    ((OSResult.permFail ≠ .osFail) → (OSResult.permFail ≠ .osFail) →
      (restore_permissions ⟨"f", 420, 0, 0, 0, 0, 3, false, none⟩
          .permFail .permFail .ok).chownAttempted = true ∧
      (restore_permissions ⟨"f", 420, 0, 0, 0, 0, 3, false, none⟩
          .permFail .permFail .ok).chmodAttempted =
        !(⟨"f", 420, 0, 0, 0, 0, 3, false, none⟩ : FileMetadata).is_symlink ∧
      (restore_permissions ⟨"f", 420, 0, 0, 0, 0, 3, false, none⟩
          .permFail .permFail .ok).utimeAttempted = true ∧
      (restore_permissions ⟨"f", 420, 0, 0, 0, 0, 3, false, none⟩
          .permFail .permFail .ok).raised = false) :=
  C7_amended_best_effort ⟨"f", 420, 0, 0, 0, 0, 3, false, none⟩
    .permFail .permFail .ok

/-- C9: with the config directory absent, `collect` returns the summary
`{"total_files": 0, "total_size_bytes": 0, "skipped_files": 0}` (and,
being a total function of its oracles, raises nothing), for any matcher,
output directory and username. -/
theorem C9_missing_config_dir (m : Matcher) (out : String)
    (user : Option String) :
    ConfigCollector.collect m out user none =
      [ ("total_files", .n 0), ("total_size_bytes", .n 0),
        ("skipped_files", .n 0) ] := rfl

/-- C3: `verify_checksums(rootDir, manifest)` returns true iff every
`(path, expectedChecksum)` pair of the manifest names a file that exists
under `rootDir` and whose freshly computed checksum equals the recorded
one; a missing file or a mismatch yields `false` (the function is total:
no exception). -/
theorem C3_verify_checksums_iff (fexists : String → Bool)
    (checksumOf : String → String) (root : String) (m : BackupMetadata) :
    verify_checksums fexists checksumOf root m.checksums = true ↔
      ∀ pc ∈ m.checksums,
        fexists (root ++ "/" ++ pc.1) = true ∧
        checksumOf (root ++ "/" ++ pc.1) = pc.2 :=
  verify_checksums_iff_aux fexists checksumOf root m.checksums

/-- Witness for C3: an untouched two-file backup verifies. -/
theorem C3_verify_checksums_witness :
    verify_checksums (fun _ => true) (fun _ => "h") "r"
      ({ backup_id := "b", backup_type := "full", timestamp := "t",
         hostname := "h", kernel_version := "k", bread_version := "v",
         compression := "zstd",
         checksums := [("a", "h"), ("sub/b", "h")] } :
        BackupMetadata).checksums = true :=
  (C3_verify_checksums_iff (fun _ => true) (fun _ => "h") "r"
    { backup_id := "b", backup_type := "full", timestamp := "t",
      hostname := "h", kernel_version := "k", bread_version := "v",
      compression := "zstd",
      checksums := [("a", "h"), ("sub/b", "h")] }).mpr (by decide)

/-- C5 counterexample: a manifest document carrying every expected field
plus one unknown extra field is *not* loaded — `from_dict` forwards the
keys as constructor keyword arguments, and the unknown keyword raises
`TypeError` (modeled as `none`), contradicting the claim that extra
fields are tolerated. -/
theorem C5_counterexample_extra_field_rejected :
    load_metadata (.obj
      [ ("backup_id", .s "b1"), ("backup_type", .s "full"),
        ("parent_backup_id", .null), ("timestamp", .s "t"),
        ("hostname", .s "h"), ("kernel_version", .s "k"),
        ("bread_version", .s "0.1.0"), ("compression", .s "zstd"),
        ("components", .obj []), ("exclude_patterns", .arr []),
        ("checksums", .obj []), ("future_field", .s "x") ]) = none := by
  rfl

/-- C5 amended: loading a serialized manifest that contains unknown
extra fields fails (for any document with a key outside the dataclass's
field names, `load` errors out) — extra fields are rejected, not
tolerated. -/
theorem C5_amended_unknown_field_fails (kvs : List (String × Json))
    (k : String) (v : Json) (hmem : (k, v) ∈ kvs)
    (hunk : k ∉ backupMetadataFields) :
    BackupMetadata.from_dict (.obj kvs) = none := by
  have hall : kvs.all (fun kv => decide (kv.1 ∈ backupMetadataFields)) = false :=
    List.all_eq_false.mpr ⟨(k, v), hmem, by simpa using hunk⟩
  simp [BackupMetadata.from_dict, asObj, hall]

/-- Witness for C5 amended at a concrete document. -/
theorem C5_amended_unknown_field_fails_witness :
    BackupMetadata.from_dict (.obj [("nonsense", .null)]) = none :=
  C5_amended_unknown_field_fails [("nonsense", .null)] "nonsense" .null
    (by simp) (by decide)

/-- C10: `cleanup_old_backups` returns exactly the paths it successfully
deleted, which all come from the part of the newest-first list past the
first `keep_count` entries; with distinct backup paths, none of the
`keep_count` most recent backups is ever deleted, and every kept backup
is at least as recent as every deletion candidate. -/
theorem C10_cleanup_keeps_recent (destExists : Bool) (dest : String)
    (entries : List DirEntry) (deleteOk : String → Bool) (keep : Nat) :
    cleanup_old_backups destExists dest entries deleteOk keep =
      (((list_backups destExists dest entries "date").drop keep).filter
        (fun b => deleteOk b.path)).map (fun b => b.path) ∧
    (((list_backups destExists dest entries "date").map (fun b => b.path)).Nodup →
      ∀ b ∈ (list_backups destExists dest entries "date").take keep,
        b.path ∉ cleanup_old_backups destExists dest entries deleteOk keep) ∧
    (∀ b ∈ (list_backups destExists dest entries "date").take keep,
      ∀ c ∈ (list_backups destExists dest entries "date").drop keep,
        c.date ≤ b.date) := by
  refine ⟨rfl, ?_, ?_⟩
  · intro hnd b hb hmem
    simp only [cleanup_old_backups, List.mem_map] at hmem
    obtain ⟨c, hc, hcp⟩ := hmem
    have hc' : c ∈ (list_backups destExists dest entries "date").drop keep :=
      List.mem_of_mem_filter hc
    have h1 : b.path ∈ ((list_backups destExists dest entries "date").take keep).map
        (fun b => b.path) := List.mem_map_of_mem _ hb
    have h2 : b.path ∈ ((list_backups destExists dest entries "date").drop keep).map
        (fun b => b.path) := by
      rw [← hcp]
      exact List.mem_map_of_mem _ hc'
    have hsplit := List.take_append_drop keep (list_backups destExists dest entries "date")
    rw [← hsplit, List.map_append, List.nodup_append] at hnd
    exact hnd.2.2 h1 h2
  · intro b hb c hc
    exact (list_backups_sorted destExists dest entries).rel_of_mem_take_of_mem_drop
      hb hc

/-- Witness for C10: two backups, keep the newest; the newest backup's
path is not among the deletions. -/
theorem C10_cleanup_keeps_recent_witness :
    (⟨"new.bread", "d/new.bread", 10, 100, "unknown"⟩ : BackupInfo).path ∉
      cleanup_old_backups true "d"
        [⟨"old.bread", some (5, 50)⟩, ⟨"new.bread", some (10, 100)⟩]
        (fun _ => true) 1 :=
  (C10_cleanup_keeps_recent true "d"
      [⟨"old.bread", some (5, 50)⟩, ⟨"new.bread", some (10, 100)⟩]
      (fun _ => true) 1).2.1
    (by
      have h : list_backups true "d"
          [⟨"old.bread", some (5, 50)⟩, ⟨"new.bread", some (10, 100)⟩] "date"
          = [⟨"new.bread", "d/new.bread", 10, 100, "unknown"⟩,
             ⟨"old.bread", "d/old.bread", 5, 50, "unknown"⟩] := by rfl
      rw [h]; simp)
    ⟨"new.bread", "d/new.bread", 10, 100, "unknown"⟩
    (by
      have h : list_backups true "d"
          [⟨"old.bread", some (5, 50)⟩, ⟨"new.bread", some (10, 100)⟩] "date"
          = [⟨"new.bread", "d/new.bread", 10, 100, "unknown"⟩,
             ⟨"old.bread", "d/old.bread", 5, 50, "unknown"⟩] := by rfl
      rw [h]; simp)

/-- C4: saving any manifest and loading the written document yields a
structurally equal manifest, including empty `components` and
`checksums` mappings. -/
theorem C4_manifest_roundtrip (m : BackupMetadata) :
    load_metadata (save_metadata m) = some m := by
  obtain ⟨bid, bty, ts, hn, kv, bv, cp, par, comps, excl, cks⟩ := m
  cases par <;>
    simp [load_metadata, save_metadata, BackupMetadata.to_dict,
      BackupMetadata.from_dict, BackupMetadata.ofFields, asObj, jlookup,
      backupMetadataFields, asStr, asOptStr, asStrList, asStrPairs,
      decodeStrs_map_s, decodeStrPairs_roundtrip, List.find?]

/-- C8: converting any `FileMetadata` record to its sidecar dictionary
(with `mode` rendered as an octal string) and back yields the original
record; in particular the octal mode string parses back to the original
integer mode. -/
theorem C8_filemetadata_roundtrip (fm : FileMetadata) :
    FileMetadata.from_dict (FileMetadata.to_dict fm) = some fm := by
  obtain ⟨p, mo, u, g, a, mt, sz, isl, tgt⟩ := fm
  cases tgt <;>
    simp [FileMetadata.to_dict, FileMetadata.from_dict,
      FileMetadata.ofFields, plookup, fileMetadataFields,
      pyIntBase8_pyOct, List.find?]

end BreadBackup
